import Mathlib

/-
Verification development for the `gale` repository (benihime91/litcv).

The Python sources are shallowly embedded as Lean definitions:

* `src/gale/collections/pandas.py` — dataframe fold extraction and label
  encoding (`get_dataframe_fold`, `get_dataset_labeling`,
  `dataframe_labels_2_int`).
* `src/gale/core/nn/losses.py` — the loss registry dispatch (`build_loss`)
  and the numeric semantics of `LabelSmoothingCrossEntropy.forward`.
* `src/gale/core_classes.py` — `DefaultTask.num_training_steps`,
  `process_optim_config`, `setup_optimization`, `build_optimizer`,
  `build_lr_scheduler`.
* `src/gale/utils/logger.py` — `setup_logger` together with the
  `functools.lru_cache()` decorator that guards it.

Python scalar values are modelled by the inductive `PyVal` (floats as
rationals), Python exceptions by `PyErr`, fallible code by `Except PyErr`.
-/

namespace Gale

/-- Python scalar values. Floats are modelled as rationals. -/
inductive PyScalar where
  | sNone : PyScalar
  | sInt : Int → PyScalar
  | sRat : ℚ → PyScalar
  | sStr : String → PyScalar
  | sBool : Bool → PyScalar
deriving DecidableEq, Repr

/-- Python values as they occur in configs and dataframe cells: scalars,
lists of scalars (the list shapes the code actually handles), and torch
tensors produced by `torch.tensor(...)`. -/
inductive PyVal where
  | vNone : PyVal
  | vInt : Int → PyVal
  | vRat : ℚ → PyVal
  | vStr : String → PyVal
  | vBool : Bool → PyVal
  | vList : List PyScalar → PyVal
  | vTensor : List PyScalar → PyVal
deriving DecidableEq, Repr

/-- Python exception classes raised by the embedded code. -/
inductive PyErr where
  | valueError
  | typeError
  | zeroDivisionError
  | keyError
  | assertionError
deriving DecidableEq, Repr

instance {ε α : Type} [DecidableEq ε] [DecidableEq α] : DecidableEq (Except ε α) :=
  fun a b =>
    match a, b with
    | .ok x, .ok y =>
      if h : x = y then isTrue (by rw [h]) else isFalse (by simp [h])
    | .error x, .error y =>
      if h : x = y then isTrue (by rw [h]) else isFalse (by simp [h])
    | .ok _, .error _ => isFalse (by simp)
    | .error _, .ok _ => isFalse (by simp)

/-- Python `str(x)` restricted to the value shapes that can appear in a
label column. -/
def pyStr : PyVal → String
  | .vNone => "None"
  | .vInt i => toString i
  | .vRat q => toString q
  | .vStr s => s
  | .vBool b => if b then "True" else "False"
  | .vList _ => "List"
  | .vTensor _ => "Tensor"

/-- Python numeric equality between a cell value and an `int` literal, as
used by the pandas elementwise comparisons `df[col] == i` / `!= i`
(ints and floats compare across types; other types are unequal). -/
def pyEqInt : PyVal → Int → Bool
  | .vInt i, j => i = j
  | .vRat q, j => q = (j : ℚ)
  | _, _ => false

/-! ## src/gale/collections/pandas.py -/

/-- A dataframe row: named cells. -/
abbrev Row : Type := List (String × PyVal)

/-- Reading column `c` of a row (`row[c]`); rows of a well-formed dataframe
contain every column. -/
def rowGet (r : Row) (c : String) : PyVal :=
  (List.lookup c r).getD .vNone

/-- Shallow embedding of `get_dataframe_fold` (pandas.py lines 93-104):
`train = data.loc[data[split_column] != split_idx]`,
`valid = data.loc[data[split_column] == split_idx]`, both with the row
order of the original dataframe (index reset only renumbers). -/
def get_dataframe_fold (df : List Row) (split_column : String) (split_idx : Int) :
    List Row × List Row :=
  (df.filter (fun r => !(pyEqInt (rowGet r split_column) split_idx)),
   df.filter (fun r => pyEqInt (rowGet r split_column) split_idx))

/-- The body of `pandasUnique`: walk the column keeping the first
occurrence of each value, remembering already-seen values. -/
def pandasUniqueGo : List String → List String → List String
  | [], _ => []
  | a :: l, seen => if a ∈ seen then pandasUniqueGo l seen else a :: pandasUniqueGo l (a :: seen)

/-- The first-occurrence deduplication performed by
`pandas.Series.unique`. -/
def pandasUnique (l : List String) : List String :=
  pandasUniqueGo l []

/-- Membership in `pandasUniqueGo`: first-unseen occurrences of the
input. -/
theorem mem_pandasUniqueGo :
    ∀ (l seen : List String) (s : String),
      s ∈ pandasUniqueGo l seen ↔ s ∈ l ∧ s ∉ seen := by
  intro l
  induction l with
  | nil => intro seen s; simp [pandasUniqueGo]
  | cons a l ih =>
    intro seen s
    rw [pandasUniqueGo]
    by_cases ha : a ∈ seen
    · rw [if_pos ha, ih]
      constructor
      · rintro ⟨h1, h2⟩
        exact ⟨List.mem_cons_of_mem a h1, h2⟩
      · rintro ⟨h1, h2⟩
        rcases List.mem_cons.1 h1 with rfl | h1
        · exact absurd ha h2
        · exact ⟨h1, h2⟩
    · rw [if_neg ha]
      by_cases hs : s = a
      · subst hs
        simp [ha]
      · rw [List.mem_cons, ih]
        simp only [List.mem_cons, hs, false_or]

/-- `pandasUniqueGo` never repeats a value. -/
theorem nodup_pandasUniqueGo :
    ∀ (l seen : List String), (pandasUniqueGo l seen).Nodup := by
  intro l
  induction l with
  | nil => intro seen; simp [pandasUniqueGo]
  | cons a l ih =>
    intro seen
    rw [pandasUniqueGo]
    by_cases ha : a ∈ seen
    · rw [if_pos ha]; exact ih seen
    · rw [if_neg ha]
      refine List.nodup_cons.2 ⟨?_, ih (a :: seen)⟩
      rw [mem_pandasUniqueGo]
      rintro ⟨-, h⟩
      exact h (List.mem_cons_self a seen)

/-- Membership in `pandasUnique` agrees with membership in the input. -/
theorem mem_pandasUnique {l : List String} {s : String} :
    s ∈ pandasUnique l ↔ s ∈ l := by
  unfold pandasUnique
  rw [mem_pandasUniqueGo]
  simp

/-- `pandasUnique` has no duplicates. -/
theorem nodup_pandasUnique (l : List String) : (pandasUnique l).Nodup :=
  nodup_pandasUniqueGo l []

/-- Lexicographic comparison of two char sequences by code point — the
order Python uses to sort `str` values. -/
def charListLe : List Char → List Char → Bool
  | [], _ => true
  | _ :: _, [] => false
  | a :: as, b :: bs => if a < b then true else if a = b then charListLe as bs else false

/-- Python string comparison `a <= b`. -/
def pyStrLe (a b : String) : Bool :=
  charListLe a.data b.data

theorem charListLe_total : ∀ as bs : List Char,
    charListLe as bs = true ∨ charListLe bs as = true := by
  intro as
  induction as with
  | nil => intro bs; left; rfl
  | cons a as ih =>
    intro bs
    cases bs with
    | nil => right; rfl
    | cons b bs =>
      rcases lt_trichotomy a b with h | h | h
      · left; simp [charListLe, h]
      · subst h
        rcases ih bs with h2 | h2
        · left; simp [charListLe, lt_irrefl, h2]
        · right; simp [charListLe, lt_irrefl, h2]
      · right; simp [charListLe, h]

theorem charListLe_trans : ∀ as bs cs : List Char,
    charListLe as bs = true → charListLe bs cs = true → charListLe as cs = true := by
  intro as
  induction as with
  | nil => intro bs cs _ _; rfl
  | cons a as ih =>
    intro bs cs h1 h2
    cases bs with
    | nil => simp [charListLe] at h1
    | cons b bs =>
      cases cs with
      | nil => simp [charListLe] at h2
      | cons c cs =>
        rw [charListLe] at h1 h2 ⊢
        by_cases hab : a < b
        · rw [if_pos hab] at h1
          by_cases hbc : b < c
          · rw [if_pos (lt_trans hab hbc)]
          · rw [if_neg hbc] at h2
            by_cases hbc2 : b = c
            · subst hbc2; rw [if_pos hab]
            · rw [if_neg hbc2] at h2; exact absurd h2 (by simp)
        · rw [if_neg hab] at h1
          by_cases hab2 : a = b
          · subst hab2
            rw [if_pos rfl] at h1
            by_cases hbc : a < c
            · rw [if_pos hbc]
            · rw [if_neg hbc] at h2 ⊢
              by_cases hbc2 : a = c
              · rw [if_pos hbc2] at h2 ⊢
                subst hbc2
                exact ih bs cs h1 h2
              · rw [if_neg hbc2] at h2; exact absurd h2 (by simp)
          · rw [if_neg hab2] at h1; exact absurd h1 (by simp)

theorem charListLe_antisymm : ∀ as bs : List Char,
    charListLe as bs = true → charListLe bs as = true → as = bs := by
  intro as
  induction as with
  | nil =>
    intro bs _ h2
    cases bs with
    | nil => rfl
    | cons b bs => simp [charListLe] at h2
  | cons a as ih =>
    intro bs h1 h2
    cases bs with
    | nil => simp [charListLe] at h1
    | cons b bs =>
      rw [charListLe] at h1 h2
      by_cases hab : a < b
      · rw [if_neg (lt_asymm hab), if_neg (fun h : b = a => lt_irrefl a (h ▸ hab))] at h2
        exact absurd h2 (by simp)
      · rw [if_neg hab] at h1
        by_cases hab2 : a = b
        · subst hab2
          rw [if_pos rfl] at h1
          rw [if_neg hab, if_pos rfl] at h2
          rw [ih bs h1 h2]
        · rw [if_neg hab2] at h1; exact absurd h1 (by simp)

/-- The Python string order as a relation. -/
def StrLe (a b : String) : Prop := pyStrLe a b = true

instance : DecidableRel StrLe := fun a b => inferInstanceAs (Decidable (pyStrLe a b = true))

instance : IsTotal String StrLe :=
  ⟨fun a b => charListLe_total a.data b.data⟩

instance : IsTrans String StrLe :=
  ⟨fun a b c => charListLe_trans a.data b.data c.data⟩

instance : IsAntisymm String StrLe :=
  ⟨fun a b h1 h2 => String.ext (charListLe_antisymm a.data b.data h1 h2)⟩

/-- `sorted(series.unique())`: the unique labels in ascending Python
string order. -/
def sortedUniqueLabels (l : List String) : List String :=
  List.insertionSort StrLe (pandasUnique l)

/-- Shallow embedding of `get_dataset_labeling` (pandas.py lines 107-116):
the dict `{str(class_name): label for label, class_name in
enumerate(sorted(df[label_column].unique()))}` as an association list in
insertion order, applied to the label column. -/
def get_dataset_labeling (labels : List String) : List (String × Nat) :=
  (sortedUniqueLabels labels).enum.map (fun p => (p.2, p.1))

/-- One dataframe of the store used to observe mutation: we model just the
label column, the only column `dataframe_labels_2_int` touches. -/
abbrev LabelColumn := List PyVal

/-- The dict lookup `tag_to_labels[str(x)]`, raising `KeyError` when the
tag is absent. -/
def tagLookup (tags : List (String × Nat)) (s : String) : Except PyErr Nat :=
  match List.lookup s tags with
  | some n => .ok n
  | none => .error .keyError

/-- Shallow embedding of the value-level work of `dataframe_labels_2_int`
(pandas.py lines 119-134): build the labeling from the data itself, then
`data[label_column].apply(lambda x: tag_to_labels[str(x)])`. -/
def dataframe_labels_2_int (col : LabelColumn) : Except PyErr LabelColumn :=
  let tags := get_dataset_labeling (col.map pyStr)
  col.mapM (fun v => (tagLookup tags (pyStr v)).map PyVal.vInt)

/-- Reference-level embedding of a call `dataframe_labels_2_int(df)` where
`df` is the dataframe stored at index `i` of the caller's store: the
function first runs `data = dataframe.copy()`, so the result is a fresh
dataframe appended to the store, and the returned reference points at the
fresh copy. -/
def dataframe_labels_2_int_call (store : List LabelColumn) (i : Nat) :
    Except PyErr (List LabelColumn × Nat) :=
  match store[i]? with
  | none => .error .keyError
  | some df => (dataframe_labels_2_int df).map (fun d => (store ++ [d], store.length))

/-! ### Theorems about the pandas helpers -/

/-- C6: for every dataframe and fold id, `get_dataframe_fold` returns
`(train, validation)` where validation is exactly the rows whose split
column equals the fold id and train is exactly the other rows; the two are
disjoint, their concatenation is a permutation of the original dataframe
(same multiset of rows), and each part is a sublist of the original, hence
preserves relative row order. -/
theorem get_dataframe_fold_partition (df : List Row) (c : String) (f : Int) :
    (∀ r ∈ (get_dataframe_fold df c f).2, pyEqInt (rowGet r c) f = true) ∧
    (∀ r ∈ (get_dataframe_fold df c f).1, pyEqInt (rowGet r c) f = false) ∧
    List.Disjoint (get_dataframe_fold df c f).1 (get_dataframe_fold df c f).2 ∧
    ((get_dataframe_fold df c f).1 ++ (get_dataframe_fold df c f).2).Perm df ∧
    List.Sublist (get_dataframe_fold df c f).1 df ∧
    List.Sublist (get_dataframe_fold df c f).2 df := by
  refine ⟨?_, ?_, ?_, ?_, List.filter_sublist df, List.filter_sublist df⟩
  · intro r hr
    exact (List.mem_filter.1 hr).2
  · intro r hr
    have h := (List.mem_filter.1 hr).2
    simpa using h
  · intro r h1 h2
    have hv := (List.mem_filter.1 h2).2
    have ht := (List.mem_filter.1 h1).2
    rw [hv] at ht
    simp at ht
  · exact (List.perm_append_comm).trans
      (List.filter_append_perm (fun r => pyEqInt (rowGet r c) f) df)

/-- Keys of the labeling are the sorted unique labels. -/
theorem get_dataset_labeling_keys (l : List String) :
    (get_dataset_labeling l).map Prod.fst = sortedUniqueLabels l := by
  unfold get_dataset_labeling
  rw [List.map_map]
  have : (Prod.fst ∘ fun p : Nat × String => (p.2, p.1)) = Prod.snd := rfl
  rw [this, List.enum_map_snd]

/-- Values of the labeling are `0, 1, ..., num_classes - 1` in order. -/
theorem get_dataset_labeling_values (l : List String) :
    (get_dataset_labeling l).map Prod.snd = List.range (get_dataset_labeling l).length := by
  unfold get_dataset_labeling
  rw [List.map_map]
  have : (Prod.snd ∘ fun p : Nat × String => (p.2, p.1)) = Prod.fst := rfl
  rw [this, List.enum_map_fst, List.length_map, List.enum_length]

/-- The sorted unique label list is sorted, duplicate-free, and has the
same members as the input. -/
theorem sortedUniqueLabels_spec (l : List String) :
    (sortedUniqueLabels l).Sorted StrLe ∧ (sortedUniqueLabels l).Nodup ∧
      ∀ s, s ∈ sortedUniqueLabels l ↔ s ∈ l := by
  refine ⟨List.sorted_insertionSort _ _, ?_, ?_⟩
  · exact ((List.perm_insertionSort _ _).nodup_iff).2 (nodup_pandasUnique l)
  · intro s
    unfold sortedUniqueLabels
    rw [List.mem_insertionSort, mem_pandasUnique]

/-- Two label lists with the same underlying set sort to the same unique
list. -/
theorem sortedUniqueLabels_eq_of_toFinset_eq {l1 l2 : List String}
    (h : l1.toFinset = l2.toFinset) :
    sortedUniqueLabels l1 = sortedUniqueLabels l2 := by
  obtain ⟨hs1, hn1, hm1⟩ := sortedUniqueLabels_spec l1
  obtain ⟨hs2, hn2, hm2⟩ := sortedUniqueLabels_spec l2
  refine List.eq_of_perm_of_sorted ?_ hs1 hs2
  refine (List.perm_ext_iff_of_nodup hn1 hn2).2 ?_
  intro s
  rw [hm1, hm2, ← List.mem_toFinset, h, List.mem_toFinset]

/-- C7: `get_dataset_labeling` maps the sorted unique labels to consecutive
integers starting at 0: the keys are duplicate-free and are exactly the
labels occurring in the column, the values are `List.range num_classes`
(so the mapping is a bijection onto `[0, num_classes)`), and any two label
columns with the same label set produce the identical mapping. -/
theorem get_dataset_labeling_spec (l1 l2 : List String)
    (h : l1.toFinset = l2.toFinset) :
    ((get_dataset_labeling l1).map Prod.fst).Nodup ∧
    (get_dataset_labeling l1).map Prod.snd = List.range (get_dataset_labeling l1).length ∧
    (∀ s, s ∈ (get_dataset_labeling l1).map Prod.fst ↔ s ∈ l1) ∧
    get_dataset_labeling l1 = get_dataset_labeling l2 := by
  obtain ⟨hs1, hn1, hm1⟩ := sortedUniqueLabels_spec l1
  refine ⟨?_, get_dataset_labeling_values l1, ?_, ?_⟩
  · rw [get_dataset_labeling_keys]; exact hn1
  · intro s
    rw [get_dataset_labeling_keys]
    exact hm1 s
  · unfold get_dataset_labeling
    rw [sortedUniqueLabels_eq_of_toFinset_eq h]

/-- Witness for C7 at concrete inputs: `["b", "a", "b"]` and `["a", "b"]`
have the same label set, so they get the identical labeling. -/
theorem get_dataset_labeling_spec_witness :
    ((get_dataset_labeling ["b", "a", "b"]).map Prod.fst).Nodup ∧
    (get_dataset_labeling ["b", "a", "b"]).map Prod.snd =
      List.range (get_dataset_labeling ["b", "a", "b"]).length ∧
    (∀ s, s ∈ (get_dataset_labeling ["b", "a", "b"]).map Prod.fst ↔ s ∈ ["b", "a", "b"]) ∧
    get_dataset_labeling ["b", "a", "b"] = get_dataset_labeling ["a", "b"] :=
  get_dataset_labeling_spec ["b", "a", "b"] ["a", "b"] (by decide)

/-- C8 counterexample: running `dataframe_labels_2_int` on the dataframe
stored at index 0 leaves that dataframe unchanged (its label column still
holds the strings), and the integer-encoded column exists only in the
fresh copy appended at index 1 — the caller's dataframe is not modified. -/
theorem dataframe_labels_2_int_not_in_place :
    dataframe_labels_2_int_call [[PyVal.vStr "b", PyVal.vStr "a"]] 0 =
      .ok ([[PyVal.vStr "b", PyVal.vStr "a"], [PyVal.vInt 1, PyVal.vInt 0]], 1) ∧
    ([[PyVal.vStr "b", PyVal.vStr "a"], [PyVal.vInt 1, PyVal.vInt 0]] :
      List LabelColumn)[0]? = some [PyVal.vStr "b", PyVal.vStr "a"] ∧
    [PyVal.vStr "b", PyVal.vStr "a"] ≠ [PyVal.vInt 1, PyVal.vInt 0] := by
  decide

/-- C8 amended: `dataframe_labels_2_int` first copies the dataframe, so
when the call succeeds the dataframe the caller passed in is unchanged and
the returned reference points at a fresh dataframe (appended to the store)
whose label column holds the integer ids. -/
theorem dataframe_labels_2_int_copies (store : List LabelColumn) (i : Nat)
    (df : LabelColumn) (st : List LabelColumn) (j : Nat)
    (h1 : store[i]? = some df)
    (h2 : dataframe_labels_2_int_call store i = .ok (st, j)) :
    st[i]? = some df ∧ j = store.length ∧
      ∃ d, dataframe_labels_2_int df = .ok d ∧ st = store ++ [d] ∧ st[j]? = some d := by
  simp only [dataframe_labels_2_int_call, h1] at h2
  cases hd : dataframe_labels_2_int df with
  | error e => rw [hd] at h2; simp [Except.map] at h2
  | ok d =>
    rw [hd] at h2
    simp only [Except.map, Except.ok.injEq, Prod.mk.injEq] at h2
    obtain ⟨hst, hj⟩ := h2
    subst hst hj
    have hi : i < store.length := (List.getElem?_eq_some.1 h1).1
    refine ⟨?_, rfl, d, rfl, rfl, ?_⟩
    · rw [List.getElem?_append_left hi]
      exact h1
    · simp

/-- Witness for C8 amended at a concrete store. -/
theorem dataframe_labels_2_int_copies_witness :
    ([[PyVal.vStr "x"], [PyVal.vInt 0]] : List LabelColumn)[0]? = some [PyVal.vStr "x"] ∧
    (1 : Nat) = ([[PyVal.vStr "x"]] : List LabelColumn).length ∧
      ∃ d, dataframe_labels_2_int [PyVal.vStr "x"] = .ok d ∧
        ([[PyVal.vStr "x"], [PyVal.vInt 0]] : List LabelColumn) = [[PyVal.vStr "x"]] ++ [d] ∧
        ([[PyVal.vStr "x"], [PyVal.vInt 0]] : List LabelColumn)[1]? = some d :=
  dataframe_labels_2_int_copies [[PyVal.vStr "x"]] 0 [PyVal.vStr "x"]
    [[PyVal.vStr "x"], [PyVal.vInt 0]] 1 (by decide) (by decide)

/-! ## src/gale/core/nn/losses.py -/

/-- The names registered into `LOSS_REGISTRY` by the decorators in
losses.py (lines 34, 68, 97). -/
def LOSS_REGISTRY_NAMES : List String :=
  ["LabelSmoothingCrossEntropy", "BinarySigmoidFocalLoss", "FocalLoss"]

/-- The loss configuration consumed by `build_loss`: a `name` key (which
the function asserts is present) and optional `init_args`. -/
structure LossConf where
  name : Option String
  init_args : Option (List (String × PyVal))
deriving DecidableEq, Repr

/-- A constructed loss object: the resolved class, whether it came from
the registry or from the `torch.nn.modules.loss` fallback namespace, and
the keyword arguments it was constructed with. -/
structure Loss where
  clsName : String
  fromRegistry : Bool
  args : Option (List (String × PyVal))
deriving DecidableEq, Repr

/-- The `torch.tensor(args["weight"], dtype=torch.float)` conversion. -/
def torchTensor : PyVal → PyVal
  | .vList xs => .vTensor xs
  | .vInt i => .vTensor [.sInt i]
  | .vRat q => .vTensor [.sRat q]
  | .vBool b => .vTensor [.sBool b]
  | v => v

/-- The weight-argument preprocessing in `build_loss` (losses.py lines
181-183): when `init_args` holds a non-null `weight`, replace it with its
tensor form. -/
def convertWeightArg (args : Option (List (String × PyVal))) :
    Option (List (String × PyVal)) :=
  match args with
  | none => none
  | some l =>
    some (l.map (fun p =>
      if p.1 = "weight" ∧ p.2 ≠ .vNone then (p.1, torchTensor p.2) else p))

/-- Shallow embedding of `build_loss` (losses.py lines 165-201). The
external namespace `torch.nn.modules.loss` is a parameter
(`torch_losses`): the set of attribute names it exposes. -/
def build_loss (torch_losses : List String) (config : LossConf) : Except PyErr Loss :=
  match config.name with
  | none => .error .assertionError
  | some name =>
    let args := convertWeightArg config.init_args
    if name ∈ LOSS_REGISTRY_NAMES then
      .ok { clsName := name, fromRegistry := true, args := args }
    else if name ∈ torch_losses then
      .ok { clsName := name, fromRegistry := false, args := args }
    else
      .error .assertionError

/-- C5: `build_loss` resolves the name against the loss registry first;
when absent there it falls back to the `torch.nn.modules.loss` namespace;
when the name is in neither it fails with the assertion that backs the
spec's `UnknownLossError`; when found in either place it returns the
constructed loss instance (with the weight argument tensorised). -/
theorem build_loss_resolution (torch_losses : List String) (config : LossConf)
    (name : String) (h : config.name = some name) :
    (name ∈ LOSS_REGISTRY_NAMES →
      build_loss torch_losses config =
        .ok { clsName := name, fromRegistry := true,
              args := convertWeightArg config.init_args }) ∧
    (name ∉ LOSS_REGISTRY_NAMES → name ∈ torch_losses →
      build_loss torch_losses config =
        .ok { clsName := name, fromRegistry := false,
              args := convertWeightArg config.init_args }) ∧
    (name ∉ LOSS_REGISTRY_NAMES → name ∉ torch_losses →
      build_loss torch_losses config = .error .assertionError) := by
  refine ⟨?_, ?_, ?_⟩
  · intro h1
    simp [build_loss, h, h1]
  · intro h1 h2
    simp [build_loss, h, h1, h2]
  · intro h1 h2
    simp [build_loss, h, h1, h2]

/-- Witness for C5 at concrete inputs: a registered name resolves from the
registry, a torch-only name from the fallback, an unknown name errors. -/
theorem build_loss_resolution_witness :
    (build_loss ["MSELoss"] { name := some "FocalLoss", init_args := none } =
      .ok { clsName := "FocalLoss", fromRegistry := true, args := none }) ∧
    (build_loss ["MSELoss"] { name := some "MSELoss", init_args := none } =
      .ok { clsName := "MSELoss", fromRegistry := false, args := none }) ∧
    (build_loss ["MSELoss"] { name := some "NoSuchLoss", init_args := none } =
      .error .assertionError) :=
  ⟨(build_loss_resolution ["MSELoss"] { name := some "FocalLoss", init_args := none }
      "FocalLoss" rfl).1 (by decide),
   (build_loss_resolution ["MSELoss"] { name := some "MSELoss", init_args := none }
      "MSELoss" rfl).2.1 (by decide) (by decide),
   (build_loss_resolution ["MSELoss"] { name := some "NoSuchLoss", init_args := none }
      "NoSuchLoss" rfl).2.2 (by decide) (by decide)⟩

/-- The reduction mode strings accepted by the losses. -/
inductive Reduction where
  | rNone
  | rMean
  | rSum
deriving DecidableEq, Repr

/-- A loss output: a scalar for `mean`/`sum` reduction, a per-sample
vector for `none`. -/
inductive TOut (N : Nat) where
  | scalar : ℚ → TOut N
  | vec : (Fin N → ℚ) → TOut N

/-- Scalar content of a `TOut` (the reductions used always match). -/
def TOut.getScalar {N : Nat} : TOut N → ℚ
  | .scalar q => q
  | .vec _ => 0

/-- Vector content of a `TOut`. -/
def TOut.getVec {N : Nat} : TOut N → (Fin N → ℚ)
  | .scalar _ => fun _ => 0
  | .vec v => v

/-- `torch.nn.functional.nll_loss` on a matrix of log-probabilities:
per-sample loss `-w[target[i]] * lp[i][target[i]]`, reduced per the mode
(`mean` divides by the summed weights of the picked classes, which is `N`
when no weight is given). -/
def nll_loss {N C : Nat} (lp : Fin N → Fin C → ℚ) (target : Fin N → Fin C)
    (weight : Option (Fin C → ℚ)) (reduction : Reduction) : TOut N :=
  let w : Fin C → ℚ := fun j => match weight with | some wf => wf j | none => 1
  match reduction with
  | .rNone => .vec (fun i => -(w (target i)) * lp i (target i))
  | .rSum => .scalar (∑ i, -(w (target i)) * lp i (target i))
  | .rMean => .scalar ((∑ i, -(w (target i)) * lp i (target i)) / (∑ i, w (target i)))

/-- Shallow embedding of `LabelSmoothingCrossEntropy.forward` (losses.py
lines 47-65). `log_softmax` is an external torch function shared by both
sides of the claim, so it enters as the parameter `logsm`; `c` is the
class count (`input.size()[1]`). -/
def lsce_forward {N C : Nat} (eps : ℚ) (reduction : Reduction)
    (weight : Option (Fin C → ℚ))
    (logsm : (Fin N → Fin C → ℚ) → (Fin N → Fin C → ℚ))
    (input : Fin N → Fin C → ℚ) (target : Fin N → Fin C) : TOut N :=
  let c : ℚ := (C : ℚ)
  let log_preds := logsm input
  let nll := nll_loss log_preds target weight reduction
  match reduction with
  | .rSum =>
    let loss : ℚ := -(∑ i, ∑ j, log_preds i j)
    .scalar (loss * eps / c + (1 - eps) * nll.getScalar)
  | .rMean =>
    let loss : ℚ := (∑ i, -(∑ j, log_preds i j)) / (N : ℚ)
    .scalar (loss * eps / c + (1 - eps) * nll.getScalar)
  | .rNone =>
    .vec (fun i => (-(∑ j, log_preds i j)) * eps / c + (1 - eps) * nll.getVec i)

/-- C9: with `eps = 0` and no class weights, `LabelSmoothingCrossEntropy`
computes exactly `F.nll_loss(log_softmax(input), target)` under the same
reduction mode, for every reduction mode, every logits matrix, every
target vector, and every log-softmax function. -/
theorem lsce_eps_zero_is_cross_entropy {N C : Nat}
    (logsm : (Fin N → Fin C → ℚ) → (Fin N → Fin C → ℚ))
    (input : Fin N → Fin C → ℚ) (target : Fin N → Fin C) (reduction : Reduction) :
    lsce_forward 0 reduction none logsm input target =
      nll_loss (logsm input) target none reduction := by
  cases reduction with
  | rSum => simp [lsce_forward, nll_loss, TOut.getScalar]
  | rMean => simp [lsce_forward, nll_loss, TOut.getScalar]
  | rNone =>
    unfold lsce_forward nll_loss
    simp [TOut.getVec]

/-! ## src/gale/core_classes.py -/

/-- `trainer.limit_train_batches`: an `int` or a `float` fraction. -/
inductive LimitTrainBatches where
  | int : Int → LimitTrainBatches
  | float : ℚ → LimitTrainBatches
deriving DecidableEq, Repr

/-- The trainer attributes `DefaultTask` reads (the external
`pl.Trainer` contract). -/
structure Trainer where
  max_epochs : Option Int
  max_steps : Option Int
  limit_train_batches : LimitTrainBatches
  accumulate_grad_batches : Int
  num_gpus : Int
  num_processes : Int
  tpu_cores : Option Int
deriving DecidableEq, Repr

/-- Python `int(q)`: truncation toward zero. -/
def pyTrunc (q : ℚ) : Int :=
  if 0 ≤ q then q.floor else q.ceil

/-- The value of a `return` in `num_training_steps`: the early return
hands back a bare int, the final return a pair — the type the caller
unpacks. -/
inductive NTSRet where
  | single : Int → NTSRet
  | pair : Int → Int → NTSRet
deriving DecidableEq, Repr

/-- Shallow embedding of `DefaultTask.num_training_steps` (core_classes.py
lines 526-553). `train_dl_len` is `len(self._train_dl)`. Division is
Python floor division; multiplying by a `None` `max_epochs` raises
`TypeError`, dividing by a zero effective batch size raises
`ZeroDivisionError`. -/
def num_training_steps (tr : Trainer) (train_dl_len : Nat) : Except PyErr NTSRet :=
  let dataset_size : Int :=
    match tr.limit_train_batches with
    | .int n => if n ≠ 0 then n else (train_dl_len : Int)
    | .float q => pyTrunc ((train_dl_len : ℚ) * q)
  let num_devices : Int := max (max 1 tr.num_gpus) tr.num_processes
  let num_devices : Int :=
    match tr.tpu_cores with
    | some t => if t ≠ 0 then max num_devices t else num_devices
    | none => num_devices
  let effective_batch_size := tr.accumulate_grad_batches * num_devices
  if effective_batch_size = 0 then .error .zeroDivisionError
  else
    match tr.max_epochs with
    | none => .error .typeError
    | some me =>
      let max_estimated_steps := (Int.fdiv dataset_size effective_batch_size) * me
      match tr.max_steps with
      | some ms =>
        if ms ≠ 0 ∧ ms < max_estimated_steps then .ok (.single ms)
        else .ok (.pair max_estimated_steps dataset_size)
      | none => .ok (.pair max_estimated_steps dataset_size)

/-- The scheduler part of the optimization config. -/
structure SchedulerConf where
  name : Option String
  init_args : List (String × PyVal)
  interval : String
  monitor : String
deriving DecidableEq, Repr

/-- The optimizer part of the optimization config. -/
structure OptimizerConf where
  name : Option String
  init_args : List (String × PyVal)
deriving DecidableEq, Repr

/-- The optimization config tree: the three top-level step-count fields
the `vals` loop fills in, plus optimizer and scheduler sections. -/
structure OptimConf where
  steps_per_epoch : Int
  max_steps : Int
  max_epochs : Int
  optimizer : OptimizerConf
  scheduler : SchedulerConf
deriving DecidableEq, Repr

/-- Python `value == -1` for a config entry (ints and floats both compare
equal to -1). -/
def isNegOne : PyVal → Bool
  | .vInt i => i = -1
  | .vRat q => q = -1
  | _ => false

/-- Overwrite key `k` of an association list (Python dict update; keys
are unique in a dict, so mapping over entries is the dict update). -/
def updKey (l : List (String × PyVal)) (k : String) (v : PyVal) :
    List (String × PyVal) :=
  l.map (fun p => if p.1 = k then (k, v) else p)

/-- Shallow embedding of `DefaultTask.process_optim_config`
(core_classes.py lines 302-380): reject a trainer with neither
`max_epochs` nor `max_steps`; otherwise unpack `num_training_steps()`
(a bare-int return fails to unpack: `TypeError`), compute
`ifnone(trainer.max_epochs, max_steps // steps)` (both arguments eagerly,
so a zero `steps` raises `ZeroDivisionError`), fill the three top-level
fields that are `< 1`, and overwrite the four sentinel scheduler init
arguments that equal -1. -/
def process_optim_config (tr : Trainer) (train_dl_len : Nat) (conf : OptimConf) :
    Except PyErr OptimConf :=
  if tr.max_epochs = none ∧ tr.max_steps = none then .error .valueError
  else
    match num_training_steps tr train_dl_len with
    | .error e => .error e
    | .ok (.single _) => .error .typeError
    | .ok (.pair max_steps steps) =>
      if steps = 0 then .error .zeroDivisionError
      else
        let max_epochs : Int :=
          match tr.max_epochs with
          | some e => e
          | none => Int.fdiv max_steps steps
        let c1 := if conf.steps_per_epoch < 1 then { conf with steps_per_epoch := steps } else conf
        let c2 := if c1.max_steps < 1 then { c1 with max_steps := max_steps } else c1
        let c3 := if c2.max_epochs < 1 then { c2 with max_epochs := max_epochs } else c2
        let sc0 := c3.scheduler.init_args
        let a1 := if (List.lookup "max_iters" sc0).any isNegOne
          then updKey sc0 "max_iters" (.vInt max_steps) else sc0
        let a2 := if (List.lookup "epochs" sc0).any isNegOne
          then updKey a1 "epochs" (.vInt max_epochs) else a1
        let a3 := if (List.lookup "steps_per_epoch" sc0).any isNegOne
          then updKey a2 "steps_per_epoch" (.vInt steps) else a2
        let a4 := if (List.lookup "max_steps" sc0).any isNegOne
          then updKey a3 "max_steps" (.vInt max_steps) else a3
        .ok { c3 with scheduler := { c3.scheduler with init_args := a4 } }

/-- A constructed optimizer (`OPTIM_REGISTRY.get(name)(params=params,
**init_args)` modelled symbolically; the registry classes live outside
src/). -/
structure Optimizer where
  name : String
  params : PyVal
  init_args : List (String × PyVal)
deriving DecidableEq, Repr

/-- A constructed learning-rate scheduler
(`SCHEDULER_REGISTRY.get(name)(optimizer=optimizer, **kwds)` modelled
symbolically). The optimizer slot records exactly what was passed —
possibly `None`. -/
structure Scheduler where
  name : String
  optimizer : Option Optimizer
  kwds : List (String × PyVal)
deriving DecidableEq, Repr

/-- The pytorch-lightning LRScheduler dictionary built at the end of
`build_lr_scheduler`. -/
structure SchedDict where
  scheduler : Scheduler
  interval : String
  monitor : String
deriving DecidableEq, Repr

/-- Log levels used by the embedded logging calls. -/
inductive Level where
  | debug
  | info
  | warning
deriving DecidableEq, Repr

/-- A logged message. -/
abbrev LogMsg := Level × String

/-- Task state read by the optimization builders: the optional
`optimization` namespace of `self._cfg`, `self._model.hypers.lr`, and
`self.param_dicts`. -/
structure TaskState where
  cfg_optimization : Option OptimConf
  model_lr : PyVal
  param_dicts : PyVal
deriving DecidableEq, Repr

/-- Shallow embedding of `DefaultTask.build_optimizer` (core_classes.py
lines 411-431): a `None` optimizer name logs a warning and yields no
optimizer; otherwise the registry entry is constructed with the params
and the configured init args. -/
def build_optimizer (conf : OptimConf) (params : PyVal) :
    Option Optimizer × List LogMsg :=
  match conf.optimizer.name with
  | none =>
    (none, [(Level.warning, "Optimizer is None, therefore no optimizer will be created.")])
  | some n =>
    (some { name := n, params := params, init_args := conf.optimizer.init_args },
     [(Level.debug, "Created optimizer")])

/-- The kwds-rebuilding loop of `build_lr_scheduler` (core_classes.py
lines 458-464): a list value is passed through as a plain list, a
non-list value under the key `max_lr` is replaced by `max_lrs`, anything
else is passed through. -/
def schedKwds (max_lrs : PyVal) : List (String × PyVal) → List (String × PyVal)
  | [] => []
  | p :: l =>
    (match p.2 with
     | .vList xs => (p.1, PyVal.vList xs)
     | v => if p.1 = "max_lr" then (p.1, max_lrs) else (p.1, v)) :: schedKwds max_lrs l

/-- Shallow embedding of `DefaultTask.build_lr_scheduler` (core_classes.py
lines 433-480). `max_lrs = self._model.hypers.lr` is read first; a `None`
scheduler name yields no scheduler; otherwise the init args are rebuilt
by `schedKwds` and the constructed scheduler is wrapped into the
`{scheduler, interval, monitor}` dictionary. -/
def build_lr_scheduler (task : TaskState) (conf : OptimConf)
    (optimizer : Option Optimizer) : Option SchedDict × List LogMsg :=
  let max_lrs := task.model_lr
  match conf.scheduler.name with
  | none => (none, [(Level.info, "scheduler is None, so no scheduler will be created.")])
  | some n =>
    let kwds := schedKwds max_lrs conf.scheduler.init_args
    let sch : Scheduler := { name := n, optimizer := optimizer, kwds := kwds }
    (some { scheduler := sch, interval := conf.scheduler.interval,
            monitor := conf.scheduler.monitor },
     [(Level.debug, "Created lr_scheduler")])

/-- Shallow embedding of `DefaultTask.setup_optimization` (core_classes.py
lines 382-409): fall back to `self._cfg.optimization` when no config is
passed; with no config at all, warn and set both optimizer and scheduler
to `None`; otherwise process the config, build the optimizer, then build
the scheduler from the (possibly `None`) optimizer. -/
def setup_optimization (task : TaskState) (tr : Trainer) (train_dl_len : Nat)
    (conf : Option OptimConf) :
    Except PyErr (Option Optimizer × Option SchedDict × List LogMsg) :=
  let opt_conf :=
    match conf with
    | some c => some c
    | none => task.cfg_optimization
  match opt_conf with
  | none =>
    .ok (none, none,
      [(Level.warning, "No optimization config found, therefore no optimizer was created")])
  | some c =>
    match process_optim_config tr train_dl_len c with
    | .error e => .error e
    | .ok pc =>
      let bo := build_optimizer pc task.param_dicts
      let bs := build_lr_scheduler task pc bo.1
      .ok (bo.1, bs.1, bo.2 ++ bs.2)

/-! ### Theorems about the optimization plumbing -/

/-- `process_optim_config` never touches the optimizer section or the
scheduler name: it only fills step counts and scheduler init args. -/
theorem process_optim_config_preserves_names (tr : Trainer) (dlLen : Nat)
    (conf pc : OptimConf) (h : process_optim_config tr dlLen conf = .ok pc) :
    pc.optimizer = conf.optimizer ∧ pc.scheduler.name = conf.scheduler.name := by
  unfold process_optim_config at h
  by_cases hb : tr.max_epochs = none ∧ tr.max_steps = none
  · rw [if_pos hb] at h
    exact Except.noConfusion h
  · rw [if_neg hb] at h
    cases hnts : num_training_steps tr dlLen with
    | error e => rw [hnts] at h; exact Except.noConfusion h
    | ok r =>
      rw [hnts] at h
      cases r with
      | single n => exact Except.noConfusion h
      | pair ms steps =>
        dsimp only at h
        by_cases hs : steps = 0
        · rw [if_pos hs] at h
          exact Except.noConfusion h
        · rw [if_neg hs] at h
          have hx := Except.ok.inj h
          subst hx
          constructor <;> dsimp only <;> split_ifs <;> rfl

/-- Concrete trainer for the C1 scenario: `max_epochs=None`,
`max_steps=1000`, `accumulate_grad_batches=1`, `num_gpus=1` (and the
pytorch-lightning defaults `num_processes=1`, `tpu_cores=None`,
`limit_train_batches=1.0`). -/
def c1Trainer : Trainer :=
  { max_epochs := none, max_steps := some 1000, limit_train_batches := .float 1,
    accumulate_grad_batches := 1, num_gpus := 1, num_processes := 1, tpu_cores := none }

/-- An optimization config with all three step fields left to be
inferred. -/
def c1Conf : OptimConf :=
  { steps_per_epoch := -1, max_steps := -1, max_epochs := -1,
    optimizer := { name := some "sgd", init_args := [] },
    scheduler := { name := some "onecycle",
                   init_args := [("max_iters", .vInt (-1))],
                   interval := "step", monitor := "valid_loss" } }

/-- C1 (code bug): with `max_epochs=None`, `max_steps=1000`,
`accumulate_grad_batches=1`, `num_gpus=1` and a training dataset of 500
batches, `process_optim_config` does not resolve `steps_per_epoch=500`,
`max_epochs=2`: `num_training_steps` evaluates
`(dataset_size // effective_batch_size) * self._trainer.max_epochs`
with `max_epochs=None`, which raises `TypeError` before the resolution
the spec describes can happen. -/
theorem process_optim_config_c1_raises :
    process_optim_config c1Trainer 500 c1Conf = .error .typeError ∧
    num_training_steps c1Trainer 500 = .error .typeError :=
  ⟨rfl, rfl⟩

/-- C4: with both `max_epochs` and `max_steps` unset on the trainer,
`process_optim_config` fails immediately with the `ValueError` raised at
core_classes.py line 318 (the spec taxonomy's `ConfigurationError`), and
`setup_optimization` propagates it fatally, before any optimizer or
scheduler is constructed. -/
theorem process_optim_config_both_none_fatal (task : TaskState) (tr : Trainer)
    (dlLen : Nat) (conf : OptimConf)
    (h1 : tr.max_epochs = none) (h2 : tr.max_steps = none) :
    process_optim_config tr dlLen conf = .error .valueError ∧
    setup_optimization task tr dlLen (some conf) = .error .valueError := by
  have hp : process_optim_config tr dlLen conf = .error .valueError := by
    unfold process_optim_config
    rw [if_pos ⟨h1, h2⟩]
  refine ⟨hp, ?_⟩
  unfold setup_optimization
  simp only [hp]

/-- A trainer with neither `max_epochs` nor `max_steps`. -/
def bothNoneTrainer : Trainer :=
  { max_epochs := none, max_steps := none, limit_train_batches := .float 1,
    accumulate_grad_batches := 1, num_gpus := 1, num_processes := 1, tpu_cores := none }

/-- A task whose internal config carries no optimization namespace. -/
def plainTask : TaskState :=
  { cfg_optimization := none, model_lr := .vInt 7, param_dicts := .vStr "params" }

/-- Witness for C4 at a concrete trainer and config. -/
theorem process_optim_config_both_none_fatal_witness :
    process_optim_config bothNoneTrainer 500 c1Conf = .error .valueError ∧
    setup_optimization plainTask bothNoneTrainer 500 (some c1Conf) = .error .valueError :=
  process_optim_config_both_none_fatal plainTask bothNoneTrainer 500 c1Conf rfl rfl

/-- C2 amended: when the optimizer name is `None`, `setup_optimization`
skips only the optimizer (warning, no exception), but still calls
`build_lr_scheduler`: with a scheduler name set, a scheduler is still
constructed — bound to the absent (`None`) optimizer; no scheduler is
produced only when the scheduler name is also `None`. -/
theorem setup_optimization_optimizer_none (task : TaskState) (tr : Trainer)
    (dlLen : Nat) (conf : OptimConf) (o : Option Optimizer) (s : Option SchedDict)
    (logs : List LogMsg)
    (hname : conf.optimizer.name = none)
    (hok : setup_optimization task tr dlLen (some conf) = .ok (o, s, logs)) :
    o = none ∧
    (Level.warning, "Optimizer is None, therefore no optimizer will be created.") ∈ logs ∧
    (conf.scheduler.name = none → s = none) ∧
    (∀ n, conf.scheduler.name = some n →
      ∃ d, s = some d ∧ d.scheduler.optimizer = none ∧ d.scheduler.name = n) := by
  have hsome : setup_optimization task tr dlLen (some conf) =
      match process_optim_config tr dlLen conf with
      | .error e => .error e
      | .ok pc =>
        .ok ((build_optimizer pc task.param_dicts).1,
          (build_lr_scheduler task pc (build_optimizer pc task.param_dicts).1).1,
          (build_optimizer pc task.param_dicts).2 ++
            (build_lr_scheduler task pc (build_optimizer pc task.param_dicts).1).2) := rfl
  rw [hsome] at hok
  cases hpc : process_optim_config tr dlLen conf with
  | error e => rw [hpc] at hok; exact Except.noConfusion hok
  | ok pc =>
    rw [hpc] at hok
    dsimp only at hok
    obtain ⟨hopt, hsname⟩ := process_optim_config_preserves_names tr dlLen conf pc hpc
    have hpcname : pc.optimizer.name = none := by rw [hopt, hname]
    have hbo : build_optimizer pc task.param_dicts =
        (none, [(Level.warning, "Optimizer is None, therefore no optimizer will be created.")]) := by
      unfold build_optimizer
      rw [hpcname]
    rw [hbo] at hok
    dsimp only at hok
    cases hcs : conf.scheduler.name with
    | none =>
      have hbl : build_lr_scheduler task pc none =
          (none, [(Level.info, "scheduler is None, so no scheduler will be created.")]) := by
        unfold build_lr_scheduler
        rw [hsname, hcs]
      rw [hbl] at hok
      dsimp only at hok
      have hok2 := Except.ok.inj hok
      simp only [Prod.mk.injEq] at hok2
      obtain ⟨ho, hs, hl⟩ := hok2
      subst ho hs hl
      refine ⟨rfl, by simp, fun _ => rfl, ?_⟩
      intro n hn
      exact Option.noConfusion hn
    | some n =>
      have hbl : build_lr_scheduler task pc none =
          (some { scheduler := { name := n, optimizer := none,
                                 kwds := schedKwds task.model_lr pc.scheduler.init_args },
                  interval := pc.scheduler.interval, monitor := pc.scheduler.monitor },
           [(Level.debug, "Created lr_scheduler")]) := by
        unfold build_lr_scheduler
        rw [hsname, hcs]
      rw [hbl] at hok
      dsimp only at hok
      have hok2 := Except.ok.inj hok
      simp only [Prod.mk.injEq] at hok2
      obtain ⟨ho, hs, hl⟩ := hok2
      subst ho hs hl
      refine ⟨rfl, by simp, ?_, ?_⟩
      · intro hnone
        exact Option.noConfusion hnone
      · intro m hm
        injection hm with hm2
        subst hm2
        exact ⟨_, rfl, rfl, rfl⟩

/-- When the first `max_lr` entry of the scheduler init args is not a
list, `schedKwds` rebinds it to the model learning rate. -/
theorem lookup_schedKwds_max_lr (lr : PyVal) :
    ∀ (args : List (String × PyVal)) (v : PyVal),
      List.lookup "max_lr" args = some v → (∀ xs, v ≠ .vList xs) →
      List.lookup "max_lr" (schedKwds lr args) = some lr := by
  intro args
  induction args with
  | nil =>
    intro v h _
    simp [List.lookup] at h
  | cons p l ih =>
    intro v h hv
    obtain ⟨k, val⟩ := p
    by_cases hk : ("max_lr" : String) = k
    · subst hk
      have hval : val = v := by simpa [List.lookup] using h
      subst hval
      cases val with
      | vList xs => exact absurd rfl (hv xs)
      | vNone => simp [schedKwds, List.lookup]
      | vInt i => simp [schedKwds, List.lookup]
      | vRat q => simp [schedKwds, List.lookup]
      | vStr s => simp [schedKwds, List.lookup]
      | vBool b => simp [schedKwds, List.lookup]
      | vTensor xs => simp [schedKwds, List.lookup]
    · have hbeq : ("max_lr" == k) = false := by
        simp [hk]
      have h2 : List.lookup "max_lr" l = some v := by
        simpa [List.lookup, hbeq] using h
      have hk2 : k ≠ "max_lr" := fun hh => hk hh.symm
      cases val <;>
        (rw [schedKwds]
         dsimp only
         try rw [if_neg hk2]
         simp only [List.lookup, hbeq]
         exact ih v h2 hv)

/-- C3 amended: whenever the scheduler init args contain a `max_lr` entry
whose value is not a list, `build_lr_scheduler` constructs the scheduler
with `max_lr` bound to the model's own learning rate
(`self._model.hypers.lr`) instead of the configured value; list-valued
`max_lr` entries are excluded because the list branch of the loop runs
first and passes them through unchanged. -/
theorem build_lr_scheduler_max_lr_override (task : TaskState) (conf : OptimConf)
    (opt : Option Optimizer) (n : String) (v : PyVal)
    (hn : conf.scheduler.name = some n)
    (hv : List.lookup "max_lr" conf.scheduler.init_args = some v)
    (hnl : ∀ xs, v ≠ .vList xs) :
    ∃ d, (build_lr_scheduler task conf opt).1 = some d ∧
      d.scheduler.name = n ∧
      List.lookup "max_lr" d.scheduler.kwds = some task.model_lr := by
  unfold build_lr_scheduler
  rw [hn]
  exact ⟨_, rfl, rfl,
    lookup_schedKwds_max_lr task.model_lr conf.scheduler.init_args v hv hnl⟩

/-- Scheduler config carrying a list-valued `max_lr`. -/
def c3Conf : OptimConf :=
  { steps_per_epoch := 500, max_steps := 1000, max_epochs := 2,
    optimizer := { name := some "sgd", init_args := [] },
    scheduler := { name := some "OneCycleLR",
                   init_args := [("max_lr", .vList [.sInt 1, .sInt 2])],
                   interval := "step", monitor := "valid_loss" } }

/-- C3 counterexample: with a list-valued `max_lr` in the config, the
scheduler is constructed with the configured list — not with the model's
learning rate — because `isinstance(value, list)` is tested before
`key == "max_lr"`. -/
theorem build_lr_scheduler_max_lr_list_counterexample :
    (build_lr_scheduler plainTask c3Conf none).1 =
      some { scheduler := { name := "OneCycleLR", optimizer := none,
                            kwds := [("max_lr", PyVal.vList [.sInt 1, .sInt 2])] },
             interval := "step", monitor := "valid_loss" } ∧
    List.lookup "max_lr"
        [("max_lr", PyVal.vList [PyScalar.sInt 1, PyScalar.sInt 2])] =
      some (PyVal.vList [PyScalar.sInt 1, PyScalar.sInt 2]) ∧
    PyVal.vList [PyScalar.sInt 1, PyScalar.sInt 2] ≠ plainTask.model_lr := by
  refine ⟨by decide, by decide, by decide⟩

/-- Scheduler config carrying a scalar `max_lr`. -/
def c3wConf : OptimConf :=
  { steps_per_epoch := 500, max_steps := 1000, max_epochs := 2,
    optimizer := { name := some "sgd", init_args := [] },
    scheduler := { name := some "OneCycleLR",
                   init_args := [("max_lr", .vInt 5)],
                   interval := "step", monitor := "valid_loss" } }

/-- Witness for C3 amended at a concrete non-list `max_lr`. -/
theorem build_lr_scheduler_max_lr_override_witness :
    ∃ d, (build_lr_scheduler plainTask c3wConf none).1 = some d ∧
      d.scheduler.name = "OneCycleLR" ∧
      List.lookup "max_lr" d.scheduler.kwds = some plainTask.model_lr :=
  build_lr_scheduler_max_lr_override plainTask c3wConf none "OneCycleLR" (.vInt 5)
    rfl (by decide) (fun xs h => PyVal.noConfusion h)

/-- Trainer driving a successful `process_optim_config` run. -/
def okTrainer : Trainer :=
  { max_epochs := some 2, max_steps := none, limit_train_batches := .int 0,
    accumulate_grad_batches := 1, num_gpus := 1, num_processes := 1, tpu_cores := none }

/-- Optimization config with no optimizer name but a named scheduler. -/
def c2Conf : OptimConf :=
  { steps_per_epoch := -1, max_steps := -1, max_epochs := -1,
    optimizer := { name := none, init_args := [] },
    scheduler := { name := some "OneCycleLR",
                   init_args := [("max_iters", .vInt (-1))],
                   interval := "step", monitor := "valid_loss" } }

/-- C2 counterexample: with the optimizer name unset but a scheduler name
set, `setup_optimization` does produce a scheduler (bound to a `None`
optimizer) — it is not the case that no scheduler is produced. -/
theorem setup_optimization_c2_counterexample :
    setup_optimization plainTask okTrainer 10 (some c2Conf) =
      .ok (none,
        some { scheduler := { name := "OneCycleLR", optimizer := none,
                              kwds := [("max_iters", .vInt 20)] },
               interval := "step", monitor := "valid_loss" },
        [(Level.warning, "Optimizer is None, therefore no optimizer will be created."),
         (Level.debug, "Created lr_scheduler")]) ∧
    (some { scheduler := { name := "OneCycleLR", optimizer := none,
                           kwds := [("max_iters", .vInt 20)] },
            interval := "step", monitor := "valid_loss" } : Option SchedDict) ≠ none := by
  refine ⟨by decide, by decide⟩

/-- Witness for C2 amended at the same concrete inputs. -/
theorem setup_optimization_optimizer_none_witness :
    (none : Option Optimizer) = none ∧
    (Level.warning, "Optimizer is None, therefore no optimizer will be created.") ∈
      ([(Level.warning, "Optimizer is None, therefore no optimizer will be created."),
        (Level.debug, "Created lr_scheduler")] : List LogMsg) ∧
    (c2Conf.scheduler.name = none →
      (some { scheduler := { name := "OneCycleLR", optimizer := none,
                             kwds := [("max_iters", .vInt 20)] },
              interval := "step", monitor := "valid_loss" } : Option SchedDict) = none) ∧
    (∀ n, c2Conf.scheduler.name = some n →
      ∃ d, (some { scheduler := { name := "OneCycleLR", optimizer := none,
                                  kwds := [("max_iters", .vInt 20)] },
                   interval := "step", monitor := "valid_loss" } : Option SchedDict) = some d ∧
        d.scheduler.optimizer = none ∧ d.scheduler.name = n) :=
  setup_optimization_optimizer_none plainTask okTrainer 10 c2Conf none
    (some { scheduler := { name := "OneCycleLR", optimizer := none,
                           kwds := [("max_iters", .vInt 20)] },
            interval := "step", monitor := "valid_loss" })
    [(Level.warning, "Optimizer is None, therefore no optimizer will be created."),
     (Level.debug, "Created lr_scheduler")]
    rfl (by decide)

/-! ## src/gale/utils/logger.py -/

/-- The argument tuple of `setup_logger(distributed_rank, *, color, name,
level)` — the key the `functools.lru_cache()` decorator caches on. -/
structure LogKey where
  distributed_rank : Int
  color : Bool
  name : String
  level : Int
deriving DecidableEq, Repr

/-- The observable state of the `logging` module plus the decorator's
cache: the LRU cache contents (most recent first), each named logger's
output-handler count and level, and — for bookkeeping — how often the
`setup_logger` body has run per argument tuple. -/
structure LogState where
  cache : List LogKey
  handlers : String → Nat
  levels : String → Int
  execs : LogKey → Nat

/-- `functools.lru_cache()` defaults to `maxsize=128`. -/
def CACHE_MAXSIZE : Nat := 128

/-- Shallow embedding of one call to `setup_logger` (logger.py lines
42-72) under its `lru_cache` decorator. A cache hit returns the cached
logger (the per-name singleton `logging.getLogger(name)`, identified here
by its name) and refreshes the entry's recency without running the body.
A miss runs the body: set the logger's level, attach one stdout handler
when `distributed_rank == 0`, and insert the key into the cache, evicting
the least recently used entry beyond the capacity. -/
def setup_logger (st : LogState) (k : LogKey) : LogState × String :=
  if k ∈ st.cache then
    ({ st with cache := k :: st.cache.erase k }, k.name)
  else
    ({ cache := (k :: st.cache).take CACHE_MAXSIZE,
       handlers :=
         if k.distributed_rank = 0 then
           fun m => if m = k.name then st.handlers m + 1 else st.handlers m
         else st.handlers,
       levels := fun m => if m = k.name then k.level else st.levels m,
       execs := fun q => if q = k then st.execs q + 1 else st.execs q },
     k.name)

/-- A sequence of `setup_logger` calls. -/
def runCalls (st : LogState) (trace : List LogKey) : LogState :=
  trace.foldl (fun s k => (setup_logger s k).1) st

/-- Fresh interpreter state: empty cache, no handlers. -/
def initLogState : LogState :=
  { cache := [], handlers := fun _ => 0, levels := fun _ => 0, execs := fun _ => 0 }

/-- Cache entries come from the initial cache or from the processed
calls. -/
theorem setup_logger_cache_origin (st : LogState) (k q : LogKey)
    (h : q ∈ (setup_logger st k).1.cache) : q ∈ st.cache ∨ q = k := by
  unfold setup_logger at h
  by_cases hm : k ∈ st.cache
  · rw [if_pos hm] at h
    dsimp only at h
    rcases List.mem_cons.1 h with rfl | h2
    · exact Or.inr rfl
    · exact Or.inl ((List.erase_sublist k st.cache).mem h2)
  · rw [if_neg hm] at h
    dsimp only at h
    have h2 := List.take_subset CACHE_MAXSIZE _ h
    rcases List.mem_cons.1 h2 with rfl | h3
    · exact Or.inr rfl
    · exact Or.inl h3

/-- After a run, every cache entry was already cached or appears in the
trace. -/
theorem runCalls_cache_origin :
    ∀ (trace : List LogKey) (st : LogState) (q : LogKey),
      q ∈ (runCalls st trace).cache → q ∈ st.cache ∨ q ∈ trace := by
  intro trace
  induction trace with
  | nil => intro st q h; exact Or.inl h
  | cons k tr ih =>
    intro st q h
    rcases ih (setup_logger st k).1 q h with h2 | h2
    · rcases setup_logger_cache_origin st k q h2 with h3 | h3
      · exact Or.inl h3
      · exact Or.inr (h3 ▸ List.mem_cons_self k tr)
    · exact Or.inr (List.mem_cons_of_mem k h2)

/-- The invariant maintained while at most `allKeys` (≤ 128 distinct
tuples) are ever used: the cache never overflows, so the body of
`setup_logger` has run exactly once for the cached keys and never
otherwise, and a logger whose cached callers all have nonzero rank has no
handler. -/
def LogInv (allKeys : List LogKey) (st : LogState) : Prop :=
  st.cache.Nodup ∧ (∀ k ∈ st.cache, k ∈ allKeys) ∧
  (∀ q, st.execs q = if q ∈ st.cache then 1 else 0) ∧
  (∀ m, (∀ q ∈ st.cache, q.name = m → q.distributed_rank ≠ 0) → st.handlers m = 0)

theorem setup_logger_preserves_inv (allKeys : List LogKey)
    (hlen : allKeys.length ≤ CACHE_MAXSIZE) (st : LogState) (k : LogKey)
    (hk : k ∈ allKeys) (hinv : LogInv allKeys st) :
    LogInv allKeys (setup_logger st k).1 := by
  obtain ⟨hnd, hsub, hex, hh⟩ := hinv
  unfold setup_logger
  by_cases hmem : k ∈ st.cache
  · rw [if_pos hmem]
    dsimp only
    have hmm : ∀ q, q ∈ k :: st.cache.erase k ↔ q ∈ st.cache := by
      intro q
      rw [List.mem_cons, hnd.mem_erase_iff]
      constructor
      · rintro (rfl | ⟨-, h2⟩)
        · exact hmem
        · exact h2
      · intro h2
        by_cases hq : q = k
        · exact Or.inl hq
        · exact Or.inr ⟨hq, h2⟩
    refine ⟨?_, ?_, ?_, ?_⟩
    · exact List.nodup_cons.2 ⟨hnd.not_mem_erase, hnd.erase k⟩
    · intro q hq
      exact hsub q ((hmm q).1 hq)
    · intro q
      rw [hex q]
      by_cases hq : q ∈ st.cache
      · rw [if_pos hq, if_pos ((hmm q).2 hq)]
      · rw [if_neg hq, if_neg (fun hc => hq ((hmm q).1 hc))]
    · intro m hm
      exact hh m (fun q hq => hm q ((hmm q).2 hq))
  · rw [if_neg hmem]
    dsimp only
    have hnd2 : (k :: st.cache).Nodup := List.nodup_cons.2 ⟨hmem, hnd⟩
    have hsub2 : ∀ q ∈ k :: st.cache, q ∈ allKeys := by
      intro q hq
      rcases List.mem_cons.1 hq with rfl | h2
      · exact hk
      · exact hsub q h2
    have hlen2 : (k :: st.cache).length ≤ CACHE_MAXSIZE :=
      le_trans (List.Subperm.length_le (List.subperm_of_subset hnd2 hsub2)) hlen
    have htake : (k :: st.cache).take CACHE_MAXSIZE = k :: st.cache :=
      List.take_of_length_le hlen2
    rw [htake]
    refine ⟨hnd2, hsub2, ?_, ?_⟩
    all_goals dsimp only
    · intro q
      by_cases hq : q = k
      · subst hq
        rw [if_pos rfl, hex q, if_neg hmem, if_pos (List.mem_cons_self q st.cache)]
      · rw [if_neg hq, hex q]
        by_cases hq2 : q ∈ st.cache
        · rw [if_pos hq2, if_pos (List.mem_cons_of_mem k hq2)]
        · rw [if_neg hq2, if_neg (fun hc => by
            rcases List.mem_cons.1 hc with h3 | h3
            · exact hq h3
            · exact hq2 h3)]
    · intro m hm
      by_cases hr : k.distributed_rank = 0
      · rw [if_pos hr]
        have hm2 : m ≠ k.name := by
          intro hmk
          exact hm k (List.mem_cons_self k st.cache) hmk.symm hr
        rw [if_neg hm2]
        exact hh m (fun q hq => hm q (List.mem_cons_of_mem k hq))
      · rw [if_neg hr]
        exact hh m (fun q hq => hm q (List.mem_cons_of_mem k hq))

theorem runCalls_preserves_inv (allKeys : List LogKey)
    (hlen : allKeys.length ≤ CACHE_MAXSIZE) :
    ∀ (trace : List LogKey) (st : LogState),
      (∀ k ∈ trace, k ∈ allKeys) → LogInv allKeys st →
      LogInv allKeys (runCalls st trace) := by
  intro trace
  induction trace with
  | nil => intro st _ hinv; exact hinv
  | cons k tr ih =>
    intro st hsub hinv
    exact ih (setup_logger st k).1 (fun q hq => hsub q (List.mem_cons_of_mem k hq))
      (setup_logger_preserves_inv allKeys hlen st k
        (hsub k (List.mem_cons_self k tr)) hinv)

/-- C10 amended: as long as the distinct argument tuples ever used fit in
the LRU cache (at most 128, its default capacity), `setup_logger` is
idempotent per tuple: the body runs at most once per tuple across the
whole call sequence (hence at most one handler is attached per tuple),
every call returns the per-name singleton logger, and when every call
naming a logger has nonzero `distributed_rank`, that logger never
receives a handler. -/
theorem setup_logger_lru_idempotent (allKeys trace : List LogKey)
    (hlen : allKeys.length ≤ CACHE_MAXSIZE)
    (hsub : ∀ k ∈ trace, k ∈ allKeys) :
    (∀ q, (runCalls initLogState trace).execs q ≤ 1) ∧
    (∀ st k, (setup_logger st k).2 = k.name) ∧
    (∀ m, (∀ q ∈ trace, q.name = m → q.distributed_rank ≠ 0) →
      (runCalls initLogState trace).handlers m = 0) := by
  have hinv0 : LogInv allKeys initLogState := by
    refine ⟨List.nodup_nil, ?_, ?_, fun m _ => rfl⟩
    · intro k hk
      exact absurd hk (List.not_mem_nil k)
    · intro q
      dsimp only [initLogState]
      rw [if_neg (List.not_mem_nil q)]
  obtain ⟨-, -, hex, hh⟩ :=
    runCalls_preserves_inv allKeys hlen trace initLogState hsub hinv0
  refine ⟨?_, ?_, ?_⟩
  · intro q
    rw [hex q]
    split_ifs <;> omega
  · intro st k
    unfold setup_logger
    split_ifs <;> rfl
  · intro m hm
    refine hh m ?_
    intro q hq hqm
    rcases runCalls_cache_origin trace initLogState q hq with h0 | h0
    · exact absurd h0 (List.not_mem_nil q)
    · exact hm q h0 hqm

/-- Witness for C10 amended on a two-call trace with a single tuple. -/
theorem setup_logger_lru_idempotent_witness :
    (∀ q, (runCalls initLogState
        [⟨0, true, "w", 10⟩, ⟨0, true, "w", 10⟩]).execs q ≤ 1) ∧
    (∀ st k, (setup_logger st k).2 = k.name) ∧
    (∀ m, (∀ q ∈ ([⟨0, true, "w", 10⟩, ⟨0, true, "w", 10⟩] : List LogKey),
        q.name = m → q.distributed_rank ≠ 0) →
      (runCalls initLogState [⟨0, true, "w", 10⟩, ⟨0, true, "w", 10⟩]).handlers m = 0) :=
  setup_logger_lru_idempotent [⟨0, true, "w", 10⟩]
    [⟨0, true, "w", 10⟩, ⟨0, true, "w", 10⟩] (by decide) (by decide)

/-- The cached tuple of the C10 counterexample. -/
def gKey : LogKey := { distributed_rank := 0, color := true, name := "gale", level := 10 }

/-- 128 further distinct tuples, enough to evict `gKey` from the cache. -/
def fillerKey (i : Nat) : LogKey :=
  { distributed_rank := 0, color := true,
    name := String.singleton (Char.ofNat (161 + i)), level := 10 }

/-- A call sequence using 129 distinct tuples: `gKey`, then 128 fillers,
then `gKey` again. -/
def c10Trace : List LogKey :=
  gKey :: ((List.range 128).map fillerKey ++ [gKey])

set_option maxRecDepth 100000 in
/-- C10 counterexample: once 128 other distinct argument tuples intervene,
the LRU cache evicts the first entry, so a repeated call with the very
same tuple runs the body again — the `gale` logger ends up with two
output handlers, refuting "at most one output handler in total across all
such calls". -/
theorem setup_logger_c10_counterexample :
    (runCalls initLogState c10Trace).execs gKey = 2 ∧
    (runCalls initLogState c10Trace).handlers "gale" = 2 := by
  refine ⟨by decide, by decide⟩

end Gale
